import Mathlib

/-!
Verification of the LipVIbe audio pipeline.

This file gives a shallow embedding of the algorithmic core of the
repository — the WAV/PCM encoder (`audioBufferToBlob`), the offline voice
transformation pipeline (`applyVoiceTransformation`), the amplitude envelope
analyzer (`analyzeAudio`) and the mouth-shape sequencer
(`generateMouthShapes`, `smoothMouthShapes`) — and proves properties of
these definitions.

Conventions of the embedding:
* JavaScript numbers are modelled as exact rationals (`ℚ`); `Math.PI` is
  modelled by the exact rational value of the IEEE-754 double `Math.PI`.
* An `AudioBuffer` is a `SampleBuffer`: channel count, frame count, sample
  rate and a total function giving each channel's samples.
* A `DataView` over an `ArrayBuffer` is a total function `Nat → Nat` from
  byte offsets to byte values (a fresh `ArrayBuffer` is zero-filled).
* The semantics of the Web Audio nodes that the pipeline wires together
  (buffer source with `playbackRate`, `GainNode`, `DelayNode` with feedback,
  `ConvolverNode`, `WaveShaperNode`) are embedded as per-sample signal
  transformers following the Web Audio processing model; randomness used by
  the reverb impulse generator is an explicit stream parameter.
-/

/-- A decoded audio buffer: the embedding of the Web Audio `AudioBuffer`
values that the repository's processing functions consume and produce.
`data ch i` is the sample of channel `ch` at frame `i`. -/
structure SampleBuffer where
  numberOfChannels : Nat
  length : Nat
  sampleRate : Nat
  data : Nat → Nat → ℚ

/-- Reading `buffer.getChannelData(ch)[i]`; out-of-range frames read as
silence (an audio source past the end of its buffer outputs zero). -/
def getChannelData (b : SampleBuffer) (ch i : Nat) : ℚ :=
  if i < b.length then b.data ch i else 0

/-- The discrete mouth shapes produced by the lipsync path
(the strings `'closed'`, `'slightly-open'`, `'open'`, `'wide-open'`
in `project-manager.tsx`). -/
inductive MouthShape where
  | closed
  | slightlyOpen
  | openMouth
  | wideOpen
deriving DecidableEq, Repr

/-- Embedding of `generateMouthShapes` (project-manager.tsx:414-426):
classify each amplitude against fractions of the amplitude threshold. -/
def generateMouthShapes (threshold : ℚ) (amplitudes : List ℚ) : List MouthShape :=
  amplitudes.map fun amplitude =>
    if amplitude < threshold * (3/10) then .closed
    else if amplitude < threshold * (6/10) then .slightlyOpen
    else if amplitude < threshold * (8/10) then .openMouth
    else .wideOpen

/-- C5: the classifier maps each amplitude into the four bands delimited by
`0.3*threshold`, `0.6*threshold`, `0.8*threshold`, and preserves length. -/
theorem generateMouthShapes_bands (t : ℚ) (env : List ℚ) :
    (generateMouthShapes t env).length = env.length ∧
    ∀ i, (h : i < env.length) →
      (generateMouthShapes t env)[i]? =
        some (if env[i] < 3/10 * t then .closed
           else if 3/10 * t ≤ env[i] ∧ env[i] < 6/10 * t then .slightlyOpen
           else if 6/10 * t ≤ env[i] ∧ env[i] < 8/10 * t then .openMouth
           else MouthShape.wideOpen) := by
  constructor
  · simp [generateMouthShapes]
  · intro i hi
    simp only [generateMouthShapes, List.getElem?_map, List.getElem?_eq_getElem hi,
      Option.map_some', Option.some.injEq]
    set a := env[i] with ha
    by_cases h1 : a < t * (3/10)
    · rw [if_pos h1, if_pos (show a < 3/10 * t by linarith)]
    · have h1' : t * (3/10) ≤ a := not_lt.mp h1
      rw [if_neg h1, if_neg (show ¬(a < 3/10 * t) by linarith)]
      by_cases h2 : a < t * (6/10)
      · rw [if_pos h2, if_pos (show 3/10 * t ≤ a ∧ a < 6/10 * t from ⟨by linarith, by linarith⟩)]
      · have h2' : t * (6/10) ≤ a := not_lt.mp h2
        rw [if_neg h2, if_neg (show ¬(3/10 * t ≤ a ∧ a < 6/10 * t) by rintro ⟨-, hb⟩; linarith)]
        by_cases h3 : a < t * (8/10)
        · rw [if_pos h3, if_pos (show 6/10 * t ≤ a ∧ a < 8/10 * t from ⟨by linarith, by linarith⟩)]
        · have h3' : t * (8/10) ≤ a := not_lt.mp h3
          rw [if_neg h3, if_neg (show ¬(6/10 * t ≤ a ∧ a < 8/10 * t) by rintro ⟨-, hb⟩; linarith)]

/-- Witness for C5 at a concrete input. -/
theorem generateMouthShapes_bands_witness :
    (generateMouthShapes 1 [(0 : ℚ)])[0]? = some MouthShape.closed := by
  have h := (generateMouthShapes_bands 1 [(0 : ℚ)]).2 0 (by simp)
  norm_num at h
  exact h

/-- C6 counterexample: on envelope `[0.05, 0.05, 0.4, 0.4, 0.4, 0.05, 0.05]`
with threshold `0.1`, the classifier does NOT yield
`[closed, closed, open, open, open, closed, closed]`
(0.05 is not below `0.3*0.1 = 0.03`, and 0.4 is not below `0.8*0.1 = 0.08`). -/
theorem scenarioB_claim_false :
    generateMouthShapes (1/10)
        [1/20, 1/20, 2/5, 2/5, 2/5, 1/20, 1/20] ≠
      [.closed, .closed, .openMouth, .openMouth, .openMouth, .closed, .closed] := by
  simp only [generateMouthShapes, List.map]
  norm_num
  decide

/-- C6 amended: the classifier on that envelope yields
`[slightly-open, slightly-open, wide-open, wide-open, wide-open,
slightly-open, slightly-open]`. -/
theorem scenarioB_actual :
    generateMouthShapes (1/10)
        [1/20, 1/20, 2/5, 2/5, 2/5, 1/20, 1/20] =
      [.slightlyOpen, .slightlyOpen, .wideOpen, .wideOpen, .wideOpen,
       .slightlyOpen, .slightlyOpen] := by
  simp only [generateMouthShapes, List.map]
  norm_num

/-- Embedding of the `mostCommon` reduction inside `smoothMouthShapes`
(project-manager.tsx:437-439): fold the window keeping the accumulator
unless the next element's occurrence count (over the whole window) is
strictly larger. -/
def mostCommon (w : List MouthShape) : MouthShape :=
  match w with
  | [] => .closed
  | h :: t => t.foldl (fun a b => if w.count a ≥ w.count b then a else b) h

/-- Embedding of `smoothMouthShapes` (project-manager.tsx:429-444): copy the
input, then for each interior index `i` (window radius 3) overwrite position
`i` with the most common shape of the window `shapes[i-3 .. i+3]` of the
ORIGINAL input. -/
def smoothMouthShapes (smoothing : Bool) (shapes : List MouthShape) : List MouthShape :=
  if !smoothing then shapes
  else
    (List.range' 3 (shapes.length - 6)).foldl
      (fun smoothed i => smoothed.set i (mostCommon ((shapes.drop (i - 3)).take 7)))
      shapes

/-- The first label of a window whose occurrence count is maximal: the
specification's "most frequent label, ties broken by
first-encountered-in-scan". -/
def firstMaxLabel (w : List MouthShape) : Option MouthShape :=
  w.find? fun v => decide (∀ u ∈ w, w.count u ≤ w.count v)

section FoldlSet

variable {g : Nat → MouthShape}

lemma foldl_set_length (idxs : List Nat) (acc : List MouthShape) :
    (idxs.foldl (fun s i => s.set i (g i)) acc).length = acc.length := by
  induction idxs generalizing acc with
  | nil => rfl
  | cons i rest ih => simp [List.foldl_cons, ih, List.length_set]

lemma foldl_set_getElem?_not_mem (idxs : List Nat) (acc : List MouthShape) (j : Nat)
    (hj : j ∉ idxs) :
    (idxs.foldl (fun s i => s.set i (g i)) acc)[j]? = acc[j]? := by
  induction idxs generalizing acc with
  | nil => rfl
  | cons i rest ih =>
    simp only [List.mem_cons, not_or] at hj
    rw [List.foldl_cons, ih _ hj.2, List.getElem?_set_ne (Ne.symm hj.1)]

lemma foldl_set_getElem?_mem (idxs : List Nat) (acc : List MouthShape) (j : Nat)
    (hnd : idxs.Nodup) (hj : j ∈ idxs) (hlen : j < acc.length) :
    (idxs.foldl (fun s i => s.set i (g i)) acc)[j]? = some (g j) := by
  induction idxs generalizing acc with
  | nil => cases hj
  | cons i rest ih =>
    rw [List.foldl_cons]
    rcases List.mem_cons.mp hj with rfl | hmem
    · rw [foldl_set_getElem?_not_mem rest _ _ (List.nodup_cons.mp hnd).1,
        List.getElem?_set_self hlen]
    · exact ih _ (List.nodup_cons.mp hnd).2 hmem (by rw [List.length_set]; exact hlen)

end FoldlSet

section MostCommon

/-- The fold inside `mostCommon` returns the first element (among the part
of the window already scanned) whose count over the whole window is
maximal. -/
lemma foldl_max_first (w : List MouthShape) (r : List MouthShape) :
    ∀ (done : List MouthShape) (a : MouthShape), w = done ++ r →
      a ∈ done → (∀ u ∈ done, w.count u ≤ w.count a) →
      (∃ p q, done = p ++ a :: q ∧ ∀ u ∈ p, w.count u < w.count a) →
      (r.foldl (fun x y => if w.count x ≥ w.count y then x else y) a) ∈ w ∧
      (∀ u ∈ w, w.count u ≤
          w.count (r.foldl (fun x y => if w.count x ≥ w.count y then x else y) a)) ∧
      ∃ p q, w = p ++ (r.foldl (fun x y => if w.count x ≥ w.count y then x else y) a) :: q ∧
        ∀ u ∈ p, w.count u <
          w.count (r.foldl (fun x y => if w.count x ≥ w.count y then x else y) a) := by
  induction r with
  | nil =>
    intro done a hw hmem hmax ⟨p, q, hpq, hp⟩
    rw [List.append_nil] at hw
    subst hw
    exact ⟨hmem, hmax, p, q, hpq, hp⟩
  | cons b r' ih =>
    intro done a hw hmem hmax ⟨p, q, hpq, hp⟩
    rw [List.foldl_cons]
    by_cases hc : w.count a ≥ w.count b
    · rw [if_pos hc]
      refine ih (done ++ [b]) a (by rw [hw, List.append_assoc]; rfl)
        (List.mem_append.mpr (Or.inl hmem)) ?_ ⟨p, q ++ [b], ?_, hp⟩
      · intro u hu
        rcases List.mem_append.mp hu with hu | hu
        · exact hmax u hu
        · rw [List.mem_singleton.mp hu]; exact hc
      · rw [hpq]; simp
    · rw [if_neg hc]
      push_neg at hc
      refine ih (done ++ [b]) b (by rw [hw, List.append_assoc]; rfl)
        (List.mem_append.mpr (Or.inr (List.mem_singleton.mpr rfl))) ?_
        ⟨done, [], rfl, fun u hu => lt_of_le_of_lt (hmax u hu) hc⟩
      intro u hu
      rcases List.mem_append.mp hu with hu | hu
      · exact le_of_lt (lt_of_le_of_lt (hmax u hu) hc)
      · rw [List.mem_singleton.mp hu]

/-- `mostCommon` on a nonempty window is an element of maximal count, and
everything strictly before its occurrence has strictly smaller count. -/
lemma mostCommon_spec (w : List MouthShape) (hw : w ≠ []) :
    mostCommon w ∈ w ∧
    (∀ u ∈ w, w.count u ≤ w.count (mostCommon w)) ∧
    ∃ p q, w = p ++ mostCommon w :: q ∧ ∀ u ∈ p, w.count u < w.count (mostCommon w) := by
  match w, hw with
  | h :: t, _ =>
    have := foldl_max_first (h :: t) t [h] h rfl (List.mem_singleton.mpr rfl)
      (by intro u hu; rw [List.mem_singleton.mp hu])
      ⟨[], [], rfl, by intro u hu; cases hu⟩
    exact this

/-- The imperative fold in the source computes exactly the specification's
"most frequent label, first-encountered tie-break". -/
lemma firstMaxLabel_eq_mostCommon (w : List MouthShape) (hw : w ≠ []) :
    firstMaxLabel w = some (mostCommon w) := by
  obtain ⟨hmem, hmax, p, q, hdecomp, hlt⟩ := mostCommon_spec w hw
  unfold firstMaxLabel
  set P : MouthShape → Bool := fun v => decide (∀ u ∈ w, w.count u ≤ w.count v) with hP
  conv_lhs => rw [hdecomp]
  rw [List.find?_append]
  have h1 : List.find? P p = none := by
    rw [List.find?_eq_none]
    intro x hx
    simp only [hP, decide_eq_true_eq]
    intro hall
    exact absurd (hall (mostCommon w) hmem) (not_le.mpr (hlt x hx))
  rw [h1, Option.none_or]
  exact List.find?_cons_of_pos _
    (by simp only [hP, decide_eq_true_eq]; exact hmax)

end MostCommon

section SmoothCharacterization

lemma smooth_length (sm : Bool) (shapes : List MouthShape) :
    (smoothMouthShapes sm shapes).length = shapes.length := by
  cases sm with
  | false => rfl
  | true =>
    simp only [smoothMouthShapes, Bool.not_true, Bool.false_eq_true, if_false]
    exact foldl_set_length _ _

lemma smooth_getElem?_boundary (shapes : List MouthShape) (i : Nat)
    (h : ¬(3 ≤ i ∧ i + 3 < shapes.length)) :
    (smoothMouthShapes true shapes)[i]? = shapes[i]? := by
  simp only [smoothMouthShapes, Bool.not_true, Bool.false_eq_true, if_false]
  refine foldl_set_getElem?_not_mem _ _ _ (fun hmem => h ?_)
  have := List.mem_range'_1.mp hmem
  omega

lemma smooth_getElem?_interior (shapes : List MouthShape) (i : Nat)
    (h3 : 3 ≤ i) (hi : i + 3 < shapes.length) :
    (smoothMouthShapes true shapes)[i]? =
      some (mostCommon ((shapes.drop (i - 3)).take 7)) := by
  simp only [smoothMouthShapes, Bool.not_true, Bool.false_eq_true, if_false]
  exact foldl_set_getElem?_mem _ _ _ (List.nodup_range' 3 _)
    (List.mem_range'_1.mpr (by omega)) (by omega)

lemma window_ne_nil (shapes : List MouthShape) (i : Nat)
    (hi : i + 3 < shapes.length) :
    (shapes.drop (i - 3)).take 7 ≠ [] := by
  apply List.ne_nil_of_length_pos
  rw [List.length_take, List.length_drop]
  omega

end SmoothCharacterization

/-- C7: with smoothing enabled, every interior index `i` (3 ≤ i < length-3)
of the output holds the most frequent label of the input window
`[i-3, i+3]`, ties broken by first label encountered in the scan; boundary
indices are unchanged; with smoothing disabled the input is returned
unchanged; and the output length always equals the input length. -/
theorem smoothMouthShapes_spec (sm : Bool) (shapes : List MouthShape) :
    (smoothMouthShapes sm shapes).length = shapes.length ∧
    (sm = false → smoothMouthShapes sm shapes = shapes) ∧
    (sm = true → ∀ i,
      (¬(3 ≤ i ∧ i + 3 < shapes.length) →
        (smoothMouthShapes sm shapes)[i]? = shapes[i]?) ∧
      (3 ≤ i → i + 3 < shapes.length →
        (smoothMouthShapes sm shapes)[i]? =
          firstMaxLabel ((shapes.drop (i - 3)).take 7))) := by
  refine ⟨smooth_length sm shapes, fun hsm => by rw [hsm]; rfl, fun hsm i => ?_⟩
  subst hsm
  refine ⟨smooth_getElem?_boundary shapes i, fun h3 hi => ?_⟩
  rw [smooth_getElem?_interior shapes i h3 hi,
    firstMaxLabel_eq_mostCommon _ (window_ne_nil shapes i hi)]

/-- Witness for C7 at a concrete input (length 7, interior index 3). -/
theorem smoothMouthShapes_spec_witness :
    (smoothMouthShapes true
        [.closed, .closed, .closed, .wideOpen, .closed, .closed, .closed])[3]? =
      firstMaxLabel ((([.closed, .closed, .closed, .wideOpen, .closed, .closed,
          .closed] : List MouthShape).drop (3 - 3)).take 7) :=
  ((smoothMouthShapes_spec true
      [.closed, .closed, .closed, .wideOpen, .closed, .closed, .closed]).2.2
    rfl 3).2 (by decide) (by decide)

/-- C9: the smoothed value at an interior index depends only on the input
window `[i-3, i+3]` — the filter never reads already-smoothed neighbours,
so it cannot cascade. -/
theorem smoothMouthShapes_local (s t : List MouthShape) (i : Nat)
    (hlen : s.length = t.length) (h3 : 3 ≤ i) (hi : i + 3 < s.length)
    (hagree : ∀ j, i - 3 ≤ j → j ≤ i + 3 → s[j]? = t[j]?) :
    (smoothMouthShapes true s)[i]? = (smoothMouthShapes true t)[i]? := by
  rw [smooth_getElem?_interior s i h3 hi,
    smooth_getElem?_interior t i h3 (hlen ▸ hi)]
  have hwin : (s.drop (i - 3)).take 7 = (t.drop (i - 3)).take 7 := by
    apply List.ext_getElem?
    intro n
    rw [List.getElem?_take, List.getElem?_take, List.getElem?_drop, List.getElem?_drop]
    by_cases hn : n < 7
    · rw [if_pos hn, if_pos hn]
      exact hagree (i - 3 + n) (Nat.le_add_right _ _) (by omega)
    · rw [if_neg hn, if_neg hn]
  rw [hwin]

/-- Witness for C9: two sequences agreeing on the window `[0, 6]` but
differing at index 7 smooth to the same value at index 3. -/
theorem smoothMouthShapes_local_witness :
    (smoothMouthShapes true
        [.closed, .closed, .closed, .wideOpen, .closed, .closed, .closed, .wideOpen])[3]? =
      (smoothMouthShapes true
        [.closed, .closed, .closed, .wideOpen, .closed, .closed, .closed, .closed])[3]? :=
  smoothMouthShapes_local _ _ 3 (by decide) (by decide) (by decide)
    (fun j _ hj2 => by
      have hj : j < 7 := by omega
      interval_cases j <;> rfl)

/-- Mean absolute amplitude of one analysis window
(the `sum / (end - i)` step of `analyzeAudio`). -/
def meanAbs (c : List ℚ) : ℚ :=
  (c.map fun x => |x|).sum / (c.length : ℚ)

/-- Embedding of the windowing loop of `analyzeAudio`
(project-manager.tsx:398-408): consume the channel data in consecutive
windows of `frameSize` samples, emitting the mean absolute amplitude of
each window; the final partial window is averaged over its actual size.
(The source loop would not terminate for `frameSize = 0`; that case is
unreachable because Web Audio sample rates are at least 8000 Hz.) -/
def analyzeChunks (frameSize : Nat) : List ℚ → List ℚ
  | [] => []
  | x :: rest =>
    if h : frameSize = 0 then []
    else meanAbs ((x :: rest).take frameSize) ::
      analyzeChunks frameSize ((x :: rest).drop frameSize)
termination_by data => data.length
decreasing_by simp only [List.length_drop, List.length_cons]; omega

/-- Channel 0 of a buffer as a list (`audioBuffer.getChannelData(0)`). -/
def channel0 (b : SampleBuffer) : List ℚ :=
  (List.range b.length).map fun i => getChannelData b 0 i

/-- Embedding of `analyzeAudio` (project-manager.tsx:392-411): amplitude
envelope of channel 0 at windows of `floor(sampleRate / 30)` samples. -/
def analyzeAudio (b : SampleBuffer) : List ℚ :=
  analyzeChunks (b.sampleRate / 30) (channel0 b)

section AnalyzeLemmas

lemma analyzeChunks_nil (fs : Nat) : analyzeChunks fs [] = [] := by
  simp [analyzeChunks]

lemma analyzeChunks_cons (fs : Nat) (x : ℚ) (rest : List ℚ) (h : fs ≠ 0) :
    analyzeChunks fs (x :: rest) =
      meanAbs ((x :: rest).take fs) :: analyzeChunks fs ((x :: rest).drop fs) := by
  rw [analyzeChunks.eq_def]
  simp [h]

lemma analyzeChunks_length (fs : Nat) (hfs : 0 < fs) (data : List ℚ) :
    (analyzeChunks fs data).length = (data.length + fs - 1) / fs := by
  induction data using analyzeChunks.induct fs with
  | case1 =>
    rw [analyzeChunks_nil]
    simp only [List.length_nil, Nat.zero_add]
    exact (Nat.div_eq_of_lt (by omega)).symm
  | case2 x rest h => omega
  | case3 x rest h ih =>
    rw [analyzeChunks_cons fs x rest h, List.length_cons, ih, List.length_drop]
    set len := (x :: rest).length with hlen
    have hlen1 : 1 ≤ len := by rw [hlen]; simp
    have h1 : len + fs - 1 = (len - 1) + fs := by omega
    rw [h1, Nat.add_div_right _ hfs]
    have h2 : (len - fs + fs - 1) / fs = (len - 1) / fs := by
      rcases le_or_lt fs len with hc | hc
      · congr 1
        omega
      · have e1 : len - fs = 0 := by omega
        rw [e1, Nat.zero_add, Nat.div_eq_of_lt (by omega),
          Nat.div_eq_of_lt (by omega)]
    omega

lemma analyzeChunks_getElem? (fs : Nat) (hfs : 0 < fs) :
    ∀ (i : Nat) (data : List ℚ),
      (analyzeChunks fs data)[i]? =
        if i * fs < data.length then
          some (meanAbs ((data.drop (i * fs)).take fs))
        else none := by
  intro i
  induction i with
  | zero =>
    intro data
    cases data with
    | nil => simp [analyzeChunks_nil]
    | cons x rest =>
      rw [analyzeChunks_cons fs x rest (by omega)]
      simp
  | succ i ih =>
    intro data
    cases data with
    | nil => simp [analyzeChunks_nil]
    | cons x rest =>
      rw [analyzeChunks_cons fs x rest (by omega)]
      simp only [List.getElem?_cons_succ, ih]
      rw [List.drop_drop, List.length_drop]
      have hmul : (i + 1) * fs = i * fs + fs := by ring
      by_cases hc : i * fs < (x :: rest).length - fs
      · rw [if_pos hc, if_pos (by omega)]
        have harg : fs + i * fs = (i + 1) * fs := by ring
        rw [harg]
      · rw [if_neg hc, if_neg (by omega)]

lemma meanAbs_nonneg (c : List ℚ) : 0 ≤ meanAbs c := by
  apply div_nonneg
  · apply List.sum_nonneg
    intro y hy
    obtain ⟨x, _, rfl⟩ := List.mem_map.mp hy
    exact abs_nonneg x
  · exact Nat.cast_nonneg _

lemma analyzeChunks_mem_nonneg (fs : Nat) (data : List ℚ) :
    ∀ v ∈ analyzeChunks fs data, 0 ≤ v := by
  induction data using analyzeChunks.induct fs with
  | case1 => intro v hv; rw [analyzeChunks_nil] at hv; cases hv
  | case2 x rest h =>
    intro v hv
    rw [analyzeChunks.eq_def] at hv
    simp only [dif_pos h] at hv
    cases hv
  | case3 x rest h ih =>
    intro v hv
    rw [analyzeChunks_cons fs x rest h] at hv
    rcases List.mem_cons.mp hv with rfl | hv
    · exact meanAbs_nonneg _
    · exact ih v hv

lemma analyzeChunks_silent (fs : Nat) (data : List ℚ)
    (hz : ∀ x ∈ data, x = 0) : ∀ v ∈ analyzeChunks fs data, v = 0 := by
  induction data using analyzeChunks.induct fs with
  | case1 => intro v hv; rw [analyzeChunks_nil] at hv; cases hv
  | case2 x rest h =>
    intro v hv
    rw [analyzeChunks.eq_def] at hv
    simp only [dif_pos h] at hv
    cases hv
  | case3 x rest h ih =>
    intro v hv
    rw [analyzeChunks_cons fs x rest h] at hv
    rcases List.mem_cons.mp hv with rfl | hv
    · have hchunk : ∀ y ∈ ((x :: rest).take fs).map (fun z => |z|), y = 0 := by
        intro y hy
        obtain ⟨z, hz', rfl⟩ := List.mem_map.mp hy
        rw [hz z (List.mem_of_mem_take hz'), abs_zero]
      rw [meanAbs, List.sum_eq_zero hchunk, zero_div]
    · exact ih (fun z hx => hz z (List.mem_of_mem_drop hx)) v hv

end AnalyzeLemmas

/-- C8: the envelope analyzer windows channel 0 into consecutive windows of
`floor(sampleRate/30)` samples, emits each window's mean absolute amplitude
(the last partial window averaged over its actual size), produces exactly
`ceil(frameCount / windowSize)` values, and yields all zeros on a silent
buffer. -/
theorem analyzeAudio_spec (b : SampleBuffer) (hsr : 30 ≤ b.sampleRate) :
    (analyzeAudio b).length =
        (b.length + b.sampleRate / 30 - 1) / (b.sampleRate / 30) ∧
    (∀ i, (analyzeAudio b)[i]? =
      if i * (b.sampleRate / 30) < b.length then
        some (meanAbs (((channel0 b).drop (i * (b.sampleRate / 30))).take
          (b.sampleRate / 30)))
      else none) ∧
    ((∀ j, j < b.length → b.data 0 j = 0) → ∀ v ∈ analyzeAudio b, v = 0) := by
  have hfs : 0 < b.sampleRate / 30 := Nat.div_pos hsr (by norm_num)
  have hchlen : (channel0 b).length = b.length := by
    rw [channel0, List.length_map, List.length_range]
  refine ⟨?_, ?_, ?_⟩
  · rw [analyzeAudio, analyzeChunks_length _ hfs, hchlen]
  · intro i
    rw [analyzeAudio, analyzeChunks_getElem? _ hfs, hchlen]
  · intro hz
    apply analyzeChunks_silent
    intro x hx
    obtain ⟨j, hj, rfl⟩ := List.mem_map.mp hx
    rw [List.mem_range] at hj
    rw [getChannelData, if_pos hj]
    exact hz j hj

/-- Buffer used by the envelope-analyzer witnesses: mono, two frames of
constant amplitude 1/2 at 30 Hz (window size 1). -/
def envWitnessBuf : SampleBuffer :=
  { numberOfChannels := 1, length := 2, sampleRate := 30, data := fun _ _ => 1/2 }

/-- Witness for C8 at a concrete buffer. -/
theorem analyzeAudio_spec_witness :
    (analyzeAudio envWitnessBuf).length =
      (envWitnessBuf.length + envWitnessBuf.sampleRate / 30 - 1) /
        (envWitnessBuf.sampleRate / 30) :=
  (analyzeAudio_spec envWitnessBuf (by norm_num [envWitnessBuf])).1

/-- C10: every envelope value produced by the analyzer is non-negative. -/
theorem analyzeAudio_nonneg (b : SampleBuffer) :
    ∀ v ∈ analyzeAudio b, 0 ≤ v :=
  analyzeChunks_mem_nonneg _ _

/-- Witness for C10: the analyzer output of the concrete buffer contains
1/2, which the theorem shows non-negative. -/
theorem analyzeAudio_nonneg_witness : (0 : ℚ) ≤ 1/2 := by
  have hch : channel0 envWitnessBuf = [1/2, 1/2] := by
    rw [channel0]
    simp [envWitnessBuf, getChannelData, List.range_succ]
  have hm : meanAbs [(1 : ℚ)/2] = 1/2 := by
    rw [meanAbs]; norm_num
  have h : analyzeAudio envWitnessBuf = [1/2, 1/2] := by
    rw [analyzeAudio, hch]
    have hws : envWitnessBuf.sampleRate / 30 = 1 := by norm_num [envWitnessBuf]
    rw [hws, analyzeChunks_cons 1 _ _ (by omega)]
    have e1 : ([(1 : ℚ)/2, 1/2].take 1) = [1/2] := rfl
    have e2 : ([(1 : ℚ)/2, 1/2].drop 1) = [1/2] := rfl
    rw [e1, e2, hm, analyzeChunks_cons 1 _ _ (by omega)]
    have e3 : ([(1 : ℚ)/2].take 1) = [1/2] := rfl
    have e4 : ([(1 : ℚ)/2].drop 1) = ([] : List ℚ) := rfl
    rw [e3, e4, hm, analyzeChunks_nil]
  have hmem : (1/2 : ℚ) ∈ analyzeAudio envWitnessBuf := by
    rw [h]; simp
  exact analyzeAudio_nonneg envWitnessBuf (1/2) hmem

/-! ## PCM/WAV encoder (`audioBufferToBlob`, part_003:229-270) -/

/-- A `DataView` over an `ArrayBuffer`: byte offset → byte value. -/
def DataView : Type := Nat → Nat

/-- A fresh `ArrayBuffer` is zero-filled. -/
def zeroView : DataView := fun _ => 0

/-- `view.setUint8(off, val)`. -/
def setUint8 (v : DataView) (off val : Nat) : DataView :=
  fun k => if k = off then val % 256 else v k

/-- `view.setUint16(off, val, true)` (little-endian). -/
def setUint16 (v : DataView) (off val : Nat) : DataView :=
  setUint8 (setUint8 v off (val % 256)) (off + 1) (val / 256 % 256)

/-- `view.setUint32(off, val, true)` (little-endian). -/
def setUint32 (v : DataView) (off val : Nat) : DataView :=
  setUint8 (setUint8 (setUint8 (setUint8 v off (val % 256))
    (off + 1) (val / 256 % 256)) (off + 2) (val / 65536 % 256))
    (off + 3) (val / 16777216 % 256)

/-- `view.setInt16(off, val, true)`: two's-complement 16-bit, little-endian. -/
def setInt16 (v : DataView) (off : Nat) (val : Int) : DataView :=
  setUint16 v off (val % 65536).toNat

/-- The character loop of `writeString`. -/
def writeChars (v : DataView) (off : Nat) : List Char → DataView
  | [] => v
  | c :: cs => writeChars (setUint8 v off c.toNat) (off + 1) cs

/-- `writeString(offset, string)` in `audioBufferToBlob`. -/
def writeString (v : DataView) (off : Nat) (s : String) : DataView :=
  writeChars v off s.toList

/-- JavaScript's ToInteger (truncation toward zero), applied by
`DataView.setInt16` to a non-integral argument. -/
def jsTrunc (q : ℚ) : Int := if q < 0 then -⌊-q⌋ else ⌊q⌋

/-- `Math.max(-1, Math.min(1, sample))` — the encoder's clamp. -/
def clampSample (s : ℚ) : ℚ := max (-1) (min 1 s)

/-- The 16-bit PCM integer written for one float sample: clamp to `[-1,1]`,
scale by `0x7FFF = 32767`, truncate. -/
def pcm16 (s : ℚ) : Int := jsTrunc (clampSample s * 32767)

/-- The sample loop of `audioBufferToBlob` for one frame `i`: channels are
written in ascending order at running offset `44 + 2*(i*channels + ch)`. -/
def writeChans (b : SampleBuffer) (i : Nat) (v : DataView) : Nat → DataView
  | 0 => v
  | ch + 1 =>
    setInt16 (writeChans b i v ch) (44 + 2 * (i * b.numberOfChannels + ch))
      (pcm16 (getChannelData b ch i))

/-- One full frame of the sample loop. -/
def writeFrame (b : SampleBuffer) (i : Nat) (v : DataView) : DataView :=
  writeChans b i v b.numberOfChannels

/-- The outer sample loop: frames `0..n-1` in ascending order. -/
def writeFrames (b : SampleBuffer) (v : DataView) : Nat → DataView
  | 0 => v
  | n + 1 => writeFrame b n (writeFrames b v n)

/-- The 44-byte header writes of `audioBufferToBlob`, in source order. -/
def headerView (b : SampleBuffer) : DataView :=
  let length := b.length
  let numberOfChannels := b.numberOfChannels
  let sampleRate := b.sampleRate
  let v1 := writeString zeroView 0 "RIFF"
  let v2 := setUint32 v1 4 (36 + length * numberOfChannels * 2)
  let v3 := writeString v2 8 "WAVE"
  let v4 := writeString v3 12 "fmt "
  let v5 := setUint32 v4 16 16
  let v6 := setUint16 v5 20 1
  let v7 := setUint16 v6 22 numberOfChannels
  let v8 := setUint32 v7 24 sampleRate
  let v9 := setUint32 v8 28 (sampleRate * numberOfChannels * 2)
  let v10 := setUint16 v9 32 (numberOfChannels * 2)
  let v11 := setUint16 v10 34 16
  let v12 := writeString v11 36 "data"
  setUint32 v12 40 (length * numberOfChannels * 2)

/-- Embedding of `audioBufferToBlob`: the full byte sequence of the
produced WAV blob (header writes, then the interleaved sample loop,
materialized from the `ArrayBuffer` of size `44 + length*channels*2`). -/
def wavBytes (b : SampleBuffer) : List Nat :=
  (List.range (44 + b.length * b.numberOfChannels * 2)).map
    (writeFrames b (headerView b) b.length)

/-- Little-endian byte pair of a 16-bit value. -/
def u16le (n : Nat) : List Nat := [n % 256, n / 256 % 256]

/-- Little-endian byte quadruple of a 32-bit value. -/
def u32le (n : Nat) : List Nat :=
  [n % 256, n / 256 % 256, n / 65536 % 256, n / 16777216 % 256]

/-- Little-endian two's-complement bytes of a signed 16-bit integer. -/
def i16le (z : Int) : List Nat := u16le (z % 65536).toNat

/-- The value denoted by a little-endian byte sequence. -/
def leVal (bs : List Nat) : Nat := bs.foldr (fun byte acc => byte + 256 * acc) 0

section DataViewLemmas

lemma setUint8_self (v : DataView) (off x : Nat) :
    setUint8 v off x off = x % 256 := by
  simp [setUint8]

lemma setUint8_other (v : DataView) (off x k : Nat) (h : k ≠ off) :
    setUint8 v off x k = v k := by
  simp [setUint8, h]

lemma setUint16_other (v : DataView) (off x k : Nat)
    (h0 : k ≠ off) (h1 : k ≠ off + 1) : setUint16 v off x k = v k := by
  rw [setUint16, setUint8_other _ _ _ _ h1, setUint8_other _ _ _ _ h0]

lemma setUint32_other (v : DataView) (off x k : Nat)
    (h0 : k ≠ off) (h1 : k ≠ off + 1) (h2 : k ≠ off + 2) (h3 : k ≠ off + 3) :
    setUint32 v off x k = v k := by
  rw [setUint32, setUint8_other _ _ _ _ h3, setUint8_other _ _ _ _ h2,
    setUint8_other _ _ _ _ h1, setUint8_other _ _ _ _ h0]

lemma setInt16_other (v : DataView) (off : Nat) (z : Int) (k : Nat)
    (h0 : k ≠ off) (h1 : k ≠ off + 1) : setInt16 v off z k = v k := by
  rw [setInt16, setUint16_other _ _ _ _ h0 h1]

lemma setUint16_read0 (v : DataView) (off x : Nat) :
    setUint16 v off x off = x % 256 := by
  rw [setUint16, setUint8_other _ _ _ _ (by omega), setUint8_self]
  omega

lemma setUint16_read1 (v : DataView) (off x : Nat) :
    setUint16 v off x (off + 1) = x / 256 % 256 := by
  rw [setUint16, setUint8_self]
  omega

lemma setUint32_read0 (v : DataView) (off x : Nat) :
    setUint32 v off x off = x % 256 := by
  rw [setUint32, setUint8_other _ _ _ _ (by omega),
    setUint8_other _ _ _ _ (by omega), setUint8_other _ _ _ _ (by omega),
    setUint8_self]
  omega

lemma setUint32_read1 (v : DataView) (off x : Nat) :
    setUint32 v off x (off + 1) = x / 256 % 256 := by
  rw [setUint32, setUint8_other _ _ _ _ (by omega),
    setUint8_other _ _ _ _ (by omega), setUint8_self]
  omega

lemma setUint32_read2 (v : DataView) (off x : Nat) :
    setUint32 v off x (off + 2) = x / 65536 % 256 := by
  rw [setUint32, setUint8_other _ _ _ _ (by omega), setUint8_self]
  omega

lemma setUint32_read3 (v : DataView) (off x : Nat) :
    setUint32 v off x (off + 3) = x / 16777216 % 256 := by
  rw [setUint32, setUint8_self]
  omega

lemma map_range_add_two (v : DataView) (off : Nat) :
    (List.range (off + 2)).map v =
      (List.range off).map v ++ [v off, v (off + 1)] := by
  rw [List.range_add, List.map_append, List.map_map]
  simp [List.range_succ]

lemma map_range_add_four (v : DataView) (off : Nat) :
    (List.range (off + 4)).map v =
      (List.range off).map v ++ [v off, v (off + 1), v (off + 2), v (off + 3)] := by
  rw [List.range_add, List.map_append, List.map_map]
  simp [List.range_succ]

lemma peel_setUint16 (v : DataView) (off x : Nat) :
    (List.range (off + 2)).map (setUint16 v off x) =
      (List.range off).map v ++ u16le x := by
  rw [map_range_add_two, setUint16_read0, setUint16_read1]
  congr 1
  apply List.map_congr_left
  intro k hk
  rw [List.mem_range] at hk
  exact setUint16_other _ _ _ _ (by omega) (by omega)

lemma peel_setUint32 (v : DataView) (off x : Nat) :
    (List.range (off + 4)).map (setUint32 v off x) =
      (List.range off).map v ++ u32le x := by
  rw [map_range_add_four, setUint32_read0, setUint32_read1, setUint32_read2,
    setUint32_read3]
  congr 1
  apply List.map_congr_left
  intro k hk
  rw [List.mem_range] at hk
  exact setUint32_other _ _ _ _ (by omega) (by omega) (by omega) (by omega)

lemma peel_writeChars4 (v : DataView) (off : Nat) (c0 c1 c2 c3 : Char) :
    (List.range (off + 4)).map (writeChars v off [c0, c1, c2, c3]) =
      (List.range off).map v ++
        [c0.toNat % 256, c1.toNat % 256, c2.toNat % 256, c3.toNat % 256] := by
  have hw : writeChars v off [c0, c1, c2, c3] =
      setUint8 (setUint8 (setUint8 (setUint8 v off c0.toNat)
        (off + 1) c1.toNat) (off + 2) c2.toNat) (off + 3) c3.toNat := rfl
  rw [hw, map_range_add_four]
  set w0 := setUint8 v off c0.toNat with hw0
  set w1 := setUint8 w0 (off + 1) c1.toNat with hw1
  set w2 := setUint8 w1 (off + 2) c2.toNat with hw2
  set w3 := setUint8 w2 (off + 3) c3.toNat with hw3
  have e0 : w3 off = c0.toNat % 256 := by
    rw [hw3, setUint8_other _ _ _ _ (by omega), hw2,
      setUint8_other _ _ _ _ (by omega), hw1,
      setUint8_other _ _ _ _ (by omega), hw0, setUint8_self]
  have e1 : w3 (off + 1) = c1.toNat % 256 := by
    rw [hw3, setUint8_other _ _ _ _ (by omega), hw2,
      setUint8_other _ _ _ _ (by omega), hw1, setUint8_self]
  have e2 : w3 (off + 2) = c2.toNat % 256 := by
    rw [hw3, setUint8_other _ _ _ _ (by omega), hw2, setUint8_self]
  have e3 : w3 (off + 3) = c3.toNat % 256 := by
    rw [hw3, setUint8_self]
  rw [e0, e1, e2, e3]
  congr 1
  apply List.map_congr_left
  intro k hk
  rw [List.mem_range] at hk
  rw [hw3, setUint8_other _ _ _ _ (by omega), hw2,
    setUint8_other _ _ _ _ (by omega), hw1,
    setUint8_other _ _ _ _ (by omega), hw0, setUint8_other _ _ _ _ (by omega)]

end DataViewLemmas

section HeaderLemmas

/-- The 44 header bytes laid down by `audioBufferToBlob` before the sample
loop runs. -/
lemma header_bytes (b : SampleBuffer) :
    (List.range 44).map (headerView b) =
      [82, 73, 70, 70] ++ u32le (36 + b.length * b.numberOfChannels * 2) ++
      [87, 65, 86, 69] ++ [102, 109, 116, 32] ++ u32le 16 ++ u16le 1 ++
      u16le b.numberOfChannels ++ u32le b.sampleRate ++
      u32le (b.sampleRate * b.numberOfChannels * 2) ++
      u16le (b.numberOfChannels * 2) ++ u16le 16 ++ [100, 97, 116, 97] ++
      u32le (b.length * b.numberOfChannels * 2) := by
  have hRIFF : "RIFF".toList = ['R', 'I', 'F', 'F'] := rfl
  have hWAVE : "WAVE".toList = ['W', 'A', 'V', 'E'] := rfl
  have hfmt : "fmt ".toList = ['f', 'm', 't', ' '] := rfl
  have hdata : "data".toList = ['d', 'a', 't', 'a'] := rfl
  simp only [headerView, writeString, hRIFF, hWAVE, hfmt, hdata]
  rw [show List.range 44 = List.range (40 + 4) from rfl, peel_setUint32]
  rw [show List.range 40 = List.range (36 + 4) from rfl, peel_writeChars4]
  rw [show List.range 36 = List.range (34 + 2) from rfl, peel_setUint16]
  rw [show List.range 34 = List.range (32 + 2) from rfl, peel_setUint16]
  rw [show List.range 32 = List.range (28 + 4) from rfl, peel_setUint32]
  rw [show List.range 28 = List.range (24 + 4) from rfl, peel_setUint32]
  rw [show List.range 24 = List.range (22 + 2) from rfl, peel_setUint16]
  rw [show List.range 22 = List.range (20 + 2) from rfl, peel_setUint16]
  rw [show List.range 20 = List.range (16 + 4) from rfl, peel_setUint32]
  rw [show List.range 16 = List.range (12 + 4) from rfl, peel_writeChars4]
  rw [show List.range 12 = List.range (8 + 4) from rfl, peel_writeChars4]
  rw [show List.range 8 = List.range (4 + 4) from rfl, peel_setUint32]
  rw [show List.range 4 = List.range (0 + 4) from rfl, peel_writeChars4]
  rw [List.range_zero, List.map_nil]
  have cR : ('R').toNat % 256 = 82 := rfl
  have cI : ('I').toNat % 256 = 73 := rfl
  have cF : ('F').toNat % 256 = 70 := rfl
  have cW : ('W').toNat % 256 = 87 := rfl
  have cA : ('A').toNat % 256 = 65 := rfl
  have cV : ('V').toNat % 256 = 86 := rfl
  have cE : ('E').toNat % 256 = 69 := rfl
  have cf : ('f').toNat % 256 = 102 := rfl
  have cm : ('m').toNat % 256 = 109 := rfl
  have ct : ('t').toNat % 256 = 116 := rfl
  have csp : (' ').toNat % 256 = 32 := rfl
  have cd : ('d').toNat % 256 = 100 := rfl
  have ca : ('a').toNat % 256 = 97 := rfl
  simp only [cR, cI, cF, cW, cA, cV, cE, cf, cm, ct, csp, cd, ca]
  simp [List.append_assoc]

end HeaderLemmas

section FrameLemmas

lemma writeChans_below (b : SampleBuffer) (i c : Nat) (v : DataView) (k : Nat)
    (hk : k < 44 + 2 * (i * b.numberOfChannels)) :
    writeChans b i v c k = v k := by
  induction c with
  | zero => rfl
  | succ ch ih =>
    simp only [writeChans]
    rw [setInt16_other _ _ _ _ (by omega) (by omega), ih]

lemma writeChans_get (b : SampleBuffer) (i : Nat) (v : DataView) (c j : Nat)
    (hj : j < 2 * c) :
    writeChans b i v c (44 + 2 * (i * b.numberOfChannels) + j) =
      (if j % 2 = 0 then ((pcm16 (getChannelData b (j / 2) i)) % 65536).toNat % 256
       else ((pcm16 (getChannelData b (j / 2) i)) % 65536).toNat / 256 % 256) := by
  induction c with
  | zero => omega
  | succ ch ih =>
    simp only [writeChans]
    by_cases hc2 : j < 2 * ch
    · rw [setInt16_other _ _ _ _ (by omega) (by omega)]
      exact ih hc2
    · have hcase : j = 2 * ch ∨ j = 2 * ch + 1 := by omega
      rcases hcase with rfl | rfl
      · have hk : 44 + 2 * (i * b.numberOfChannels) + 2 * ch =
            44 + 2 * (i * b.numberOfChannels + ch) := by omega
        have hdiv : 2 * ch / 2 = ch := by omega
        rw [hk, setInt16, setUint16_read0, if_pos (by omega), hdiv]
      · have hk : 44 + 2 * (i * b.numberOfChannels) + (2 * ch + 1) =
            44 + 2 * (i * b.numberOfChannels + ch) + 1 := by omega
        have hdiv : (2 * ch + 1) / 2 = ch := by omega
        rw [hk, setInt16, setUint16_read1, if_neg (by omega), hdiv]

lemma writeFrame_below (b : SampleBuffer) (i : Nat) (v : DataView) (k : Nat)
    (hk : k < 44 + 2 * (i * b.numberOfChannels)) :
    writeFrame b i v k = v k :=
  writeChans_below b i _ v k hk

lemma writeFrames_below (b : SampleBuffer) (n : Nat) (v : DataView) (k : Nat)
    (hk : k < 44) : writeFrames b v n k = v k := by
  induction n with
  | zero => rfl
  | succ n ih =>
    simp only [writeFrames]
    rw [writeFrame_below b n _ k (by omega), ih]

/-- Two little-endian bytes per 16-bit word, word `ch` at byte pair
`(2ch, 2ch+1)`. -/
lemma interleave_pairs (f : Nat → Int) (N : Nat) :
    (List.range (2 * N)).map (fun j =>
      if j % 2 = 0 then ((f (j / 2)) % 65536).toNat % 256
      else ((f (j / 2)) % 65536).toNat / 256 % 256) =
    (List.range N).flatMap (fun ch => i16le (f ch)) := by
  induction N with
  | zero => rfl
  | succ n ih =>
    have h2 : 2 * (n + 1) = 2 * n + 1 + 1 := by ring
    rw [h2, List.range_succ, List.map_append, List.range_succ, List.map_append, ih,
      List.range_succ, List.flatMap_append]
    have e1 : (2 * n) % 2 = 0 := by omega
    have e2 : 2 * n / 2 = n := by omega
    have e3 : (2 * n + 1) % 2 = 1 := by omega
    have e4 : (2 * n + 1) / 2 = n := by omega
    simp only [List.map_cons, List.map_nil, e1, e2, e3, e4, if_pos, if_neg]
    simp [i16le, u16le, List.flatMap_cons]

/-- The body segment written by the sample loop: interleaved
frame-by-frame, channel-by-channel, 16-bit little-endian PCM. -/
lemma frames_seg (b : SampleBuffer) (v : DataView) (n : Nat) :
    (List.range (2 * (n * b.numberOfChannels))).map
      (fun m => writeFrames b v n (44 + m)) =
    (List.range n).flatMap (fun i =>
      (List.range b.numberOfChannels).flatMap (fun ch =>
        i16le (pcm16 (getChannelData b ch i)))) := by
  induction n with
  | zero => simp
  | succ n ih =>
    have hsplit : 2 * ((n + 1) * b.numberOfChannels) =
        2 * (n * b.numberOfChannels) + 2 * b.numberOfChannels := by ring
    rw [hsplit, List.range_add, List.map_append, List.map_map]
    have p1 : ∀ m ∈ List.range (2 * (n * b.numberOfChannels)),
        writeFrames b v (n + 1) (44 + m) = writeFrames b v n (44 + m) := by
      intro m hm
      rw [List.mem_range] at hm
      simp only [writeFrames]
      exact writeFrame_below b n _ _ (by omega)
    have e1 : (List.range (2 * (n * b.numberOfChannels))).map
        (fun m => writeFrames b v (n + 1) (44 + m)) =
        (List.range n).flatMap (fun i =>
          (List.range b.numberOfChannels).flatMap (fun ch =>
            i16le (pcm16 (getChannelData b ch i)))) := by
      rw [List.map_congr_left p1, ih]
    have p2 : ∀ j ∈ List.range (2 * b.numberOfChannels),
        ((fun m => writeFrames b v (n + 1) (44 + m)) ∘
          (fun j => 2 * (n * b.numberOfChannels) + j)) j =
        (if j % 2 = 0 then
          ((pcm16 (getChannelData b (j / 2) n)) % 65536).toNat % 256
         else ((pcm16 (getChannelData b (j / 2) n)) % 65536).toNat / 256 % 256) := by
      intro j hj
      rw [List.mem_range] at hj
      simp only [Function.comp_apply, writeFrames, writeFrame]
      have hk : 44 + (2 * (n * b.numberOfChannels) + j) =
          44 + 2 * (n * b.numberOfChannels) + j := by omega
      rw [hk]
      exact writeChans_get b n _ b.numberOfChannels j hj
    have e2 : (List.range (2 * b.numberOfChannels)).map
        ((fun m => writeFrames b v (n + 1) (44 + m)) ∘
          (fun j => 2 * (n * b.numberOfChannels) + j)) =
        (List.range b.numberOfChannels).flatMap (fun ch =>
          i16le (pcm16 (getChannelData b ch n))) := by
      rw [List.map_congr_left p2]
      exact interleave_pairs (fun ch => pcm16 (getChannelData b ch n)) _
    rw [e1, e2, List.range_succ, List.flatMap_append]
    simp [List.flatMap_cons]

end FrameLemmas

lemma leVal_u16le (n : Nat) (h : n < 65536) : leVal (u16le n) = n := by
  simp only [u16le, leVal, List.foldr]
  omega

lemma leVal_u32le (n : Nat) (h : n < 4294967296) : leVal (u32le n) = n := by
  simp only [u32le, leVal, List.foldr]
  omega

/-- C1: the encoder output is the 44-byte RIFF/WAVE header — "RIFF",
total-size-minus-8 (uint32 LE), "WAVE", "fmt " with sub-chunk size 16,
format code 1, channel count, sample rate, byte rate
`sampleRate*channels*2`, block align `channels*2`, bits-per-sample 16,
"data", data length `frames*channels*2` (uint32 LE) — followed by the
samples interleaved frame-by-frame then channel-by-channel, each clamped to
`[-1,1]`, scaled by 32767 and truncated to signed 16-bit little-endian; the
`leVal` conjuncts check the little-endian fields really denote the stated
values under the size hypotheses. -/
theorem audioBufferToBlob_layout (b : SampleBuffer)
    (hch : 1 ≤ b.numberOfChannels)
    (hsize : 36 + b.length * b.numberOfChannels * 2 < 4294967296)
    (hrate : b.sampleRate * b.numberOfChannels * 2 < 4294967296)
    (hblock : b.numberOfChannels * 2 < 65536) :
    (wavBytes b =
      [82, 73, 70, 70] ++ u32le (36 + b.length * b.numberOfChannels * 2) ++
      [87, 65, 86, 69] ++ [102, 109, 116, 32] ++ u32le 16 ++ u16le 1 ++
      u16le b.numberOfChannels ++ u32le b.sampleRate ++
      u32le (b.sampleRate * b.numberOfChannels * 2) ++
      u16le (b.numberOfChannels * 2) ++ u16le 16 ++ [100, 97, 116, 97] ++
      u32le (b.length * b.numberOfChannels * 2) ++
      (List.range b.length).flatMap (fun i =>
        (List.range b.numberOfChannels).flatMap (fun ch =>
          i16le (pcm16 (getChannelData b ch i))))) ∧
    leVal (u32le (36 + b.length * b.numberOfChannels * 2)) =
      36 + b.length * b.numberOfChannels * 2 ∧
    leVal (u16le b.numberOfChannels) = b.numberOfChannels ∧
    leVal (u32le b.sampleRate) = b.sampleRate ∧
    leVal (u32le (b.sampleRate * b.numberOfChannels * 2)) =
      b.sampleRate * b.numberOfChannels * 2 ∧
    leVal (u16le (b.numberOfChannels * 2)) = b.numberOfChannels * 2 ∧
    leVal (u32le (b.length * b.numberOfChannels * 2)) =
      b.length * b.numberOfChannels * 2 := by
  have hsr32 : b.sampleRate < 4294967296 := by
    have h1 : b.sampleRate * 1 * 2 ≤ b.sampleRate * b.numberOfChannels * 2 :=
      Nat.mul_le_mul (Nat.mul_le_mul (le_refl _) hch) (le_refl 2)
    have h2 : b.sampleRate * 1 * 2 = 2 * b.sampleRate := by ring
    omega
  refine ⟨?_, leVal_u32le _ hsize, leVal_u16le _ (by omega), leVal_u32le _ hsr32,
    leVal_u32le _ hrate, leVal_u16le _ hblock, leVal_u32le _ (by omega)⟩
  rw [wavBytes, List.range_add, List.map_append]
  have e1 : (List.range 44).map (writeFrames b (headerView b) b.length) =
      (List.range 44).map (headerView b) := by
    apply List.map_congr_left
    intro k hk
    rw [List.mem_range] at hk
    exact writeFrames_below b _ _ k hk
  have e2 : ((List.range (b.length * b.numberOfChannels * 2)).map
        (fun x => 44 + x)).map (writeFrames b (headerView b) b.length) =
      (List.range b.length).flatMap (fun i =>
        (List.range b.numberOfChannels).flatMap (fun ch =>
          i16le (pcm16 (getChannelData b ch i)))) := by
    rw [List.map_map]
    have hM : b.length * b.numberOfChannels * 2 =
        2 * (b.length * b.numberOfChannels) := by ring
    rw [hM]
    have hcomp : (writeFrames b (headerView b) b.length) ∘ (fun x => 44 + x) =
        fun m => writeFrames b (headerView b) b.length (44 + m) := rfl
    rw [hcomp]
    exact frames_seg b (headerView b) b.length
  rw [e1, e2, header_bytes]

/-- Buffer used by the encoder witness: stereo, two frames, 8000 Hz, with
one out-of-range sample exercising the clamp. -/
def wavWitnessBuf : SampleBuffer :=
  { numberOfChannels := 2, length := 2, sampleRate := 8000,
    data := fun ch i =>
      if ch = 0 then (if i = 0 then 1/2 else -(3/4))
      else (if i = 0 then -2 else 1/4) }

/-- Witness for C1 at a concrete stereo buffer. -/
theorem audioBufferToBlob_layout_witness :
    wavBytes wavWitnessBuf =
      [82, 73, 70, 70] ++
      u32le (36 + wavWitnessBuf.length * wavWitnessBuf.numberOfChannels * 2) ++
      [87, 65, 86, 69] ++ [102, 109, 116, 32] ++ u32le 16 ++ u16le 1 ++
      u16le wavWitnessBuf.numberOfChannels ++ u32le wavWitnessBuf.sampleRate ++
      u32le (wavWitnessBuf.sampleRate * wavWitnessBuf.numberOfChannels * 2) ++
      u16le (wavWitnessBuf.numberOfChannels * 2) ++ u16le 16 ++
      [100, 97, 116, 97] ++
      u32le (wavWitnessBuf.length * wavWitnessBuf.numberOfChannels * 2) ++
      (List.range wavWitnessBuf.length).flatMap (fun i =>
        (List.range wavWitnessBuf.numberOfChannels).flatMap (fun ch =>
          i16le (pcm16 (getChannelData wavWitnessBuf ch i)))) :=
  (audioBufferToBlob_layout wavWitnessBuf (by norm_num [wavWitnessBuf])
    (by norm_num [wavWitnessBuf]) (by norm_num [wavWitnessBuf])
    (by norm_num [wavWitnessBuf])).1

/-! ## Effects pipeline (`applyVoiceTransformation`, part_003:110-196) -/

/-- The `settings` state consumed by `applyVoiceTransformation`
(part_003:37-43): slider values `pitch`, `speed`, `reverb`, `echo`,
`distortion`. -/
structure EffectSettings where
  pitch : ℚ
  speed : ℚ
  reverb : ℚ
  echo : ℚ
  distortion : ℚ

/-- One entry of the `voiceTypes` preset table (part_003:26-33). -/
structure VoiceType where
  value : String
  pitch : ℚ
  formant : ℚ

/-- The `voiceTypes` preset table. -/
def voiceTypes : List VoiceType :=
  [⟨"male-to-female", 3/2, 6/5⟩, ⟨"female-to-male", 7/10, 4/5⟩,
   ⟨"adult-to-child", 9/5, 7/5⟩, ⟨"child-to-adult", 3/5, 7/10⟩,
   ⟨"robot", 1, 1⟩, ⟨"elderly", 9/10, 9/10⟩]

/-- `const pitchShift = selectedType.pitch * settings.pitch[0]`
(part_003:127). -/
def pitchShift (selectedType : VoiceType) (settings : EffectSettings) : ℚ :=
  selectedType.pitch * settings.pitch

/-- Output of the `AudioBufferSourceNode` playing `buf` at playback rate
`rate` (Web Audio semantics: the read position advances by `rate` per
output frame, with linear interpolation between adjacent input frames and
silence past the end of the buffer). -/
def sourceOutput (buf : SampleBuffer) (rate : ℚ) (ch t : Nat) : ℚ :=
  let p : ℚ := rate * t
  if p < 0 then 0
  else
    let i : Nat := (⌊p⌋).toNat
    let frac : ℚ := p - i
    (1 - frac) * getChannelData buf ch i + frac * getChannelData buf ch (i + 1)

/-- `createReverbImpulse` (part_003:199-213): 2-second stereo buffer of
decay-shaped noise; `noise ch i ∈ [0,1]` stands for the `Math.random()`
draws. -/
def createReverbImpulse (sampleRate : Nat) (intensity : ℚ)
    (noise : Nat → Nat → ℚ) : SampleBuffer :=
  { numberOfChannels := 2, length := sampleRate * 2, sampleRate := sampleRate,
    data := fun ch i =>
      (noise ch i * 2 - 1) * (1 - (i : ℚ) / (sampleRate * 2 : ℚ)) ^ 2 * intensity }

/-- `ConvolverNode` output: discrete convolution with the impulse response
(impulse channel index clamped to the stereo impulse). -/
def convolve (impulse : SampleBuffer) (x : Nat → ℚ) (ch t : Nat) : ℚ :=
  ((List.range (t + 1)).map
    (fun k => getChannelData impulse (min ch 1) k * x (t - k))).sum

/-- The reverb wiring (part_003:135-155): wet gain `0.3 * reverb` on the
convolved signal, dry gain `1 - 0.3 * reverb`, summed at an output gain. -/
def reverbStage (sr : Nat) (amount : ℚ) (noise : Nat → Nat → ℚ)
    (x : Nat → Nat → ℚ) (ch t : Nat) : ℚ :=
  (1 - amount * (3/10)) * x ch t +
    (amount * (3/10)) *
      convolve (createReverbImpulse sr amount noise) (x ch) ch t

/-- Output of the echo `DelayNode` (delay `D` frames) with the feedback
gain `fb` re-entering the delay line: `d(t) = x(t-D) + fb * d(t-D)` once
`t ≥ D`, silence during the first delay period. -/
def echoDelayOut (D : Nat) (fb : ℚ) (x : Nat → ℚ) : Nat → ℚ
  | t =>
    if h : t < D ∨ D = 0 then 0
    else x (t - D) + fb * echoDelayOut D fb x (t - D)
termination_by t => t
decreasing_by omega

/-- The echo wiring (part_003:158-178): fixed delay time 0.3 s (so
`0.3 * sampleRate` frames), feedback gain `0.4 * echo`, wet gain
`0.5 * echo`, dry gain `1 - 0.3 * echo`. -/
def echoStage (sr : Nat) (amount : ℚ) (x : Nat → Nat → ℚ) (ch t : Nat) : ℚ :=
  (1 - amount * (3/10)) * x ch t +
    (amount * (1/2)) * echoDelayOut (3 * sr / 10) (amount * (2/5)) (x ch) t

/-- The exact rational value of the IEEE-754 double `Math.PI`. -/
def jsPI : ℚ := 884279719003555 / 281474976710656

/-- `createDistortionCurve` (part_003:216-227): the 44100-entry
waveshaping lookup table. -/
def createDistortionCurve (amount : ℚ) (i : Nat) : ℚ :=
  let deg : ℚ := jsPI / 180
  let x : ℚ := (i * 2 : ℚ) / 44100 - 1
  ((3 + amount) * x * 20 * deg) / (jsPI + amount * |x|)

/-- `WaveShaperNode` application (Web Audio semantics): clamp the sample
to `[-1,1]`, map it to table position `(N-1)/2 * (x+1)`, and linearly
interpolate between the adjacent table entries. -/
def waveShape (curve : Nat → ℚ) (N : Nat) (s : ℚ) : ℚ :=
  let x := max (-1) (min 1 s)
  let v : ℚ := ((N : ℚ) - 1) / 2 * (x + 1)
  let k : Nat := (⌊v⌋).toNat
  if k + 1 ≤ N - 1 then (1 - (v - k)) * curve k + (v - k) * curve (k + 1)
  else curve (N - 1)

/-- The distortion wiring (part_003:181-188): waveshaper with
`createDistortionCurve(settings.distortion[0] || 0.5)`. -/
def distortionStage (amount : ℚ) (x : Nat → Nat → ℚ) (ch t : Nat) : ℚ :=
  waveShape (createDistortionCurve amount) 44100 (x ch t)

/-- Embedding of `applyVoiceTransformation` (part_003:110-196): an offline
context of exactly `buffer.length` frames and `buffer.numberOfChannels`
channels at `buffer.sampleRate`; a buffer source at
`playbackRate = selectedType.pitch * settings.pitch`; then, in order, the
reverb stage (wired only if `reverb > 0`), the echo stage (only if
`echo > 0`) and the distortion stage (only if the preset is "robot" or
`distortion > 0`, with `distortion || 0.5` as curve amount); rendering
materializes the context's frames. -/
def applyVoiceTransformation (buffer : SampleBuffer) (settings : EffectSettings)
    (selectedType : VoiceType) (noise : Nat → Nat → ℚ) : SampleBuffer :=
  let src : Nat → Nat → ℚ :=
    fun ch t => sourceOutput buffer (pitchShift selectedType settings) ch t
  let s1 : Nat → Nat → ℚ :=
    if settings.reverb > 0 then
      reverbStage buffer.sampleRate settings.reverb noise src
    else src
  let s2 : Nat → Nat → ℚ :=
    if settings.echo > 0 then echoStage buffer.sampleRate settings.echo s1 else s1
  let s3 : Nat → Nat → ℚ :=
    if selectedType.value = "robot" ∨ settings.distortion > 0 then
      distortionStage (if settings.distortion = 0 then 1/2 else settings.distortion) s2
    else s2
  { numberOfChannels := buffer.numberOfChannels, length := buffer.length,
    sampleRate := buffer.sampleRate,
    data := fun ch t =>
      if ch < buffer.numberOfChannels ∧ t < buffer.length then s3 ch t else 0 }

/-- Modelled from the spec (§8, "rate-stage-only output"): the pipeline
with only the playback-rate stage applied, rendered into a context of the
input's dimensions. Comparison definition for the refinement claim. -/
def rateStageOnlyRender (buffer : SampleBuffer) (settings : EffectSettings)
    (selectedType : VoiceType) : SampleBuffer :=
  { numberOfChannels := buffer.numberOfChannels, length := buffer.length,
    sampleRate := buffer.sampleRate,
    data := fun ch t =>
      if ch < buffer.numberOfChannels ∧ t < buffer.length then
        sourceOutput buffer (pitchShift selectedType settings) ch t
      else 0 }

/-- All-zero stand-in for the `Math.random()` stream (the reverb stage is
never wired in the concrete scenarios below). -/
def noiseZero : Nat → Nat → ℚ := fun _ _ => 0

/-- Input of the C2 counterexample: mono, 4 frames at 8000 Hz. -/
def c2Buf : SampleBuffer := ⟨1, 4, 8000, fun _ _ => 0⟩

/-- Settings of the C2 counterexample: pitch multiplier 2, no effects. -/
def c2Settings : EffectSettings := ⟨2, 1, 0, 0, 0⟩

/-- The "male-to-female" preset (base pitch 1.5). -/
def maleToFemale : VoiceType := ⟨"male-to-female", 3/2, 6/5⟩

/-- C2 counterexample: with 4 input frames and pitch multiplier 2 the
claim predicts `4 / 2 = 2` output frames, but the render's frame count is
the offline context's length, 4. -/
theorem outputFrameCount_claim_false :
    ¬(((applyVoiceTransformation c2Buf c2Settings maleToFemale noiseZero).length : ℚ) =
      (c2Buf.length : ℚ) / c2Settings.pitch) := by
  norm_num [applyVoiceTransformation, c2Buf, c2Settings]

/-- C2 (amended): the render's frame count always equals the input frame
count (the offline context is constructed with `buffer.length`), while the
rate stage is applied at `playbackRate = basePitch * pitchMultiplier`. -/
theorem applyVoiceTransformation_length (b : SampleBuffer) (s : EffectSettings)
    (vt : VoiceType) (noise : Nat → Nat → ℚ) :
    (applyVoiceTransformation b s vt noise).length = b.length ∧
    pitchShift vt s = vt.pitch * s.pitch :=
  ⟨rfl, rfl⟩

/-- C4 (amended): with reverb, echo and distortion amounts all 0 and a
voice preset other than "robot", every effect stage is skipped and the
render equals the rate-stage-only pipeline. -/
theorem zeroAmounts_rateOnly (b : SampleBuffer) (s : EffectSettings)
    (vt : VoiceType) (noise : Nat → Nat → ℚ) (hr : s.reverb = 0)
    (he : s.echo = 0) (hd : s.distortion = 0) (hrb : vt.value ≠ "robot") :
    applyVoiceTransformation b s vt noise = rateStageOnlyRender b s vt := by
  simp only [applyVoiceTransformation, rateStageOnlyRender, hr, he, hd, hrb,
    gt_iff_lt, lt_irrefl, if_false, or_self, false_or]

/-- Settings with every effect amount at zero. -/
def c4Settings : EffectSettings := ⟨1, 1, 0, 0, 0⟩

/-- Witness for the amended C4 at concrete inputs. -/
theorem zeroAmounts_rateOnly_witness :
    applyVoiceTransformation c2Buf c4Settings maleToFemale noiseZero =
      rateStageOnlyRender c2Buf c4Settings maleToFemale :=
  zeroAmounts_rateOnly c2Buf c4Settings maleToFemale noiseZero rfl rfl rfl
    (by decide)

/-- Input of the C4 counterexample: mono, one full-scale negative sample
at 44100 Hz. -/
def c4Buf : SampleBuffer := ⟨1, 1, 44100, fun _ _ => -1⟩

/-- The "robot" preset (base pitch 1). -/
def robotType : VoiceType := ⟨"robot", 1, 1⟩

/-- C4 counterexample: with all three amounts 0 but the "robot" preset,
the distortion stage is still wired (fallback amount 0.5), so the render
differs from the rate-stage-only pipeline: the waveshaper maps the sample
-1 to `curve[0] ≈ -0.335`, not to -1. -/
theorem zeroAmounts_robot_not_rateOnly :
    applyVoiceTransformation c4Buf c4Settings robotType noiseZero ≠
      rateStageOnlyRender c4Buf c4Settings robotType := by
  intro hEq
  have h := congrArg (fun sb => sb.data 0 0) hEq
  simp only [applyVoiceTransformation, rateStageOnlyRender, c4Buf, c4Settings,
    robotType, noiseZero, pitchShift, sourceOutput, getChannelData,
    distortionStage, waveShape, createDistortionCurve, echoStage] at h
  unfold distortionStage at h
  simp only [waveShape, createDistortionCurve, jsPI] at h
  norm_num [Int.floor_zero, Int.toNat_zero] at h

/-- Input of the C3 counterexample: mono, 2401 frames of full-scale 1.0 at
8000 Hz (one sample past the 0.3 s delay line of 2400 frames). -/
def c3Buf : SampleBuffer := ⟨1, 2401, 8000, fun _ _ => 1⟩

/-- Settings of the C3 counterexample: echo at full amount, pitch
multiplier 10/7 cancelling the preset's base pitch 7/10. -/
def c3Settings : EffectSettings := ⟨10/7, 1, 0, 1, 0⟩

/-- The "female-to-male" preset (base pitch 0.7). -/
def femaleToMale : VoiceType := ⟨"female-to-male", 7/10, 4/5⟩

/-- C3 counterexample: the render does NOT clamp — with full echo on a
full-scale input, the output sample at frame 2400 is
`0.7*1 + 0.5*(1 + 0.4*0) = 1.2 > 1`. -/
theorem renderOutput_exceeds_one :
    1 < (applyVoiceTransformation c3Buf c3Settings femaleToMale noiseZero).data 0 2400 := by
  have hsrc2400 : sourceOutput c3Buf 1 0 2400 = 1 := by
    unfold sourceOutput getChannelData
    norm_num [show Int.toNat 2400 = 2400 from rfl, c3Buf]
  have hsrc0 : sourceOutput c3Buf 1 0 0 = 1 := by
    unfold sourceOutput getChannelData
    norm_num [Int.floor_zero, show Int.toNat 0 = 0 from rfl, c3Buf]
  have hdelay : echoDelayOut 2400 (2/5) (fun t => sourceOutput c3Buf 1 0 t) 2400 = 1 := by
    rw [echoDelayOut.eq_def]
    norm_num
    rw [echoDelayOut.eq_def]
    norm_num [hsrc0]
  simp only [applyVoiceTransformation, c3Settings, femaleToMale, noiseZero,
    pitchShift] at *
  norm_num
  rw [if_neg (by decide : ¬("female-to-male" = "robot"))]
  unfold echoStage
  norm_num [c3Buf] at hsrc2400 hsrc0 hdelay ⊢
  rw [hsrc2400, hdelay]
  norm_num

/-- C3 (amended): the clamp to `[-1,1]` lives in the PCM encoder, not in
the render: every encoded sample is clamped before scaling, so every
16-bit PCM value lies in `[-32767, 32767]`. -/
theorem encoder_clamp_bounds (s : ℚ) :
    -1 ≤ clampSample s ∧ clampSample s ≤ 1 ∧
    -32767 ≤ pcm16 s ∧ pcm16 s ≤ 32767 := by
  have h1 : -1 ≤ clampSample s := le_max_left _ _
  have h2 : clampSample s ≤ 1 :=
    max_le (by norm_num) (min_le_left _ _)
  have hq1 : (-32767 : ℚ) ≤ clampSample s * 32767 := by nlinarith
  have hq2 : clampSample s * 32767 ≤ (32767 : ℚ) := by nlinarith
  refine ⟨h1, h2, ?_, ?_⟩
  · rw [pcm16, jsTrunc]
    split_ifs with hneg
    · have hfl : ⌊-(clampSample s * 32767)⌋ ≤ ⌊(32767 : ℚ)⌋ :=
        Int.floor_mono (by linarith)
      have h32 : ⌊(32767 : ℚ)⌋ = 32767 := by norm_num
      omega
    · have hfl : ⌊(-32767 : ℚ)⌋ ≤ ⌊clampSample s * 32767⌋ :=
        Int.floor_mono hq1
      have hm : ⌊(-32767 : ℚ)⌋ = -32767 := by norm_num
      omega
  · rw [pcm16, jsTrunc]
    split_ifs with hneg
    · have hfl : (0 : Int) ≤ ⌊-(clampSample s * 32767)⌋ :=
        Int.floor_nonneg.mpr (by linarith)
      omega
    · have hfl : ⌊clampSample s * 32767⌋ ≤ ⌊(32767 : ℚ)⌋ :=
        Int.floor_mono hq2
      have h32 : ⌊(32767 : ℚ)⌋ = 32767 := by norm_num
      omega
